import Mathlib

/-!
Verification of the hack-verdict repository: a quality-control system that
routes educational content through LLM-backed categorical judges, retrieves
each judge's verdict and explanation from a string-keyed result map, and
drives a bounded evaluate/regenerate refinement loop.

The external `verdict` pipeline library and the OpenAI generation calls are
not part of the repository's sources; pipeline runs and generation calls are
therefore abstracted as oracles (`RunOutcome`, `GenOutcome`), and the result
addressing scheme / executor are modelled from the spec where needed.
All other definitions are translated directly from the repository's Python
sources (`llm_quality_control.py`, `quality_control_evaluator.py`,
`education_test_generator.py`).
-/

namespace HackVerdict

/-- An ExecutionResult: the string-keyed map returned by a pipeline run
(`result` in the Python sources).  Modelled as an association list. -/
abbrev ExecutionResult := List (String × String)

/-- `result.get(key, '')` from Python: first matching key, default `""`. -/
def ExecutionResult.get : ExecutionResult → String → String
  | [], _ => ""
  | (k', v) :: rest, k => if k' = k then v else ExecutionResult.get rest k

/-- `list(result.keys())` from Python. -/
def ExecutionResult.keys (r : ExecutionResult) : List String := r.map Prod.fst

/-- Outcome of `self.pipeline.run(...)`: either an ExecutionResult or a
raised exception (caught by the callers' `try/except`). -/
inductive RunOutcome
  | ok (result : ExecutionResult)
  | exc
deriving DecidableEq, Repr

/-- `base_path` hard-coded in `ContentQualityControl.evaluate_content`
(llm_quality_control.py line 109). -/
def qcBasePath : String :=
  "QualityControl_root.block.layer[0].unit[CategoricalJudge QualityJudge]"

/-- The verdict key looked up by `evaluate_content`. -/
def qcChoiceKey : String := qcBasePath ++ "_choice"

/-- The explanation key looked up by `evaluate_content`. -/
def qcExplKey : String := qcBasePath ++ "_explanation"

/-- The dict returned by `ContentQualityControl.evaluate_content`. -/
structure EvalDict where
  verdict : String
  explanation : String
  content : String
deriving DecidableEq, Repr

/-- `ContentQualityControl.evaluate_content` (llm_quality_control.py
lines 94-125), with the pipeline run abstracted as its outcome:
on an exception return None; otherwise read the verdict and explanation
from the result map with default `''`; if either is empty (`if not verdict
or not explanation`) return None; otherwise return the dict. -/
def evaluate_content (outcome : RunOutcome) (content : String) : Option EvalDict :=
  match outcome with
  | RunOutcome.exc => none
  | RunOutcome.ok result =>
    let verdict := ExecutionResult.get result qcChoiceKey
    let explanation := ExecutionResult.get result qcExplKey
    if verdict = "" ∨ explanation = "" then none
    else some ⟨verdict, explanation, content⟩

/-- Outcome of the OpenAI chat-completions call inside
`generate_improved_content`: either the message content string or a raised
exception. -/
inductive GenOutcome
  | ok (text : String)
  | exc
deriving DecidableEq, Repr

/-- `ContentQualityControl.generate_improved_content` (llm_quality_control.py
lines 63-92), with the generation call abstracted: returns the generated
text, or None when the call raises (line 90-92). -/
def generate_improved_content (g : GenOutcome) : Option String :=
  match g with
  | GenOutcome.ok s => some s
  | GenOutcome.exc => none

/-- Instrumentation: one entry per judge evaluation / regeneration call made
by the refinement loop, in execution order.  `eval k c` records the
`k`-th (0-based) call of `evaluate_content`, on content `c`; `gen k i f o`
records the `k`-th call of `generate_improved_content`, on original content
`i` with feedback `f`, producing `o` (`none` when the generation raised). -/
inductive Event
  | eval (callIdx : Nat) (content : String)
  | gen (callIdx : Nat) (input feedback : String) (output : Option String)
deriving DecidableEq, Repr

/-- What a call of `ContentQualityControl.improve_content` does at the
Python level: return a value (`ret none` is Python `None`), or raise
`UnboundLocalError` at the final `return result` when the loop body never
ran and the local `result` was never bound. -/
inductive ImproveResult
  | ret (value : Option EvalDict)
  | unboundLocalError
deriving DecidableEq, Repr

/-- The `while iterations < self.max_iterations` loop of
`ContentQualityControl.improve_content` (llm_quality_control.py
lines 132-169), one recursive call per loop iteration.

* `runP k c` abstracts the pipeline run performed by the `k`-th
  `evaluate_content` call on content `c`;
* `genF k c f` abstracts the OpenAI call performed by the `k`-th
  `generate_improved_content` call;
* `fuel` is `max_iterations - iterations`, the number of loop-guard checks
  that can still succeed;
* `last` is the current binding of the Python local `result`
  (`none` = still unbound);
* `ec` / `gc` count evaluation and regeneration calls made so far.

Returns the call's outcome together with the final call counts and the
trace of evaluation/regeneration events (this invocation's suffix).
Faithful to the source line by line: evaluate, return `None` on a falsy
result, return the result on verdict `'pass'`, otherwise regenerate,
return `None` on falsy improved content (`if not improved_content`), else
replace `current_content` and loop. -/
def improveContentAux (runP : Nat → String → RunOutcome)
    (genF : Nat → String → String → GenOutcome) :
    Nat → String → Option EvalDict → Nat → Nat →
    ImproveResult × Nat × Nat × List Event
  | 0, _, last, ec, gc =>
    (match last with
     | none => ImproveResult.unboundLocalError
     | some r => ImproveResult.ret (some r), ec, gc, [])
  | fuel + 1, current, _, ec, gc =>
    match evaluate_content (runP ec current) current with
    | none => (ImproveResult.ret none, ec + 1, gc, [Event.eval ec current])
    | some r =>
      if r.verdict = "pass" then
        (ImproveResult.ret (some r), ec + 1, gc, [Event.eval ec current])
      else
        match generate_improved_content (genF gc current r.explanation) with
        | none =>
          (ImproveResult.ret none, ec + 1, gc + 1,
            [Event.eval ec current, Event.gen gc current r.explanation none])
        | some improved =>
          if improved = "" then
            (ImproveResult.ret none, ec + 1, gc + 1,
              [Event.eval ec current, Event.gen gc current r.explanation (some improved)])
          else
            let rest := improveContentAux runP genF fuel improved (some r) (ec + 1) (gc + 1)
            (rest.1, rest.2.1, rest.2.2.1,
              Event.eval ec current :: Event.gen gc current r.explanation (some improved) ::
                rest.2.2.2)

/-- `ContentQualityControl.improve_content` (llm_quality_control.py
lines 127-169): `iterations = 0`, `current_content = content`, `result`
unbound, then the loop; `max_iterations` is a Python int (the constructor
default is 3 but any int can be configured). -/
def improve_content (runP : Nat → String → RunOutcome)
    (genF : Nat → String → String → GenOutcome)
    (maxIterations : Int) (content : String) :
    ImproveResult × Nat × Nat × List Event :=
  improveContentAux runP genF maxIterations.toNat content none 0 0

/-- `base_path` hard-coded in `QualityControlEvaluator.evaluate_qc_system`
(quality_control_evaluator.py line 113). -/
def qcevalBasePath : String := "QCEvaluator_root.block.layer"

/-- The MetaJudge verdict key looked up by `evaluate_qc_system`. -/
def metaChoiceKey : String :=
  qcevalBasePath ++ "[0].unit[CategoricalJudge MetaJudge]_choice"

/-- The MetaJudge explanation key looked up by `evaluate_qc_system`. -/
def metaExplKey : String :=
  qcevalBasePath ++ "[0].unit[CategoricalJudge MetaJudge]_explanation"

/-- The FailureAnalyzer verdict key looked up by `evaluate_qc_system`. -/
def failChoiceKey : String :=
  qcevalBasePath ++ "[1].unit[CategoricalJudge FailureAnalyzer]_choice"

/-- The FailureAnalyzer explanation key looked up by `evaluate_qc_system`. -/
def failExplKey : String :=
  qcevalBasePath ++ "[1].unit[CategoricalJudge FailureAnalyzer]_explanation"

/-- The nested dict returned by `QualityControlEvaluator.evaluate_qc_system`
(flattened: `meta_evaluation.verdict/explanation`,
`failure_analysis.type/explanation`). -/
structure MetaEvalDict where
  meta_verdict : String
  meta_explanation : String
  failure_type : String
  failure_explanation : String
deriving DecidableEq, Repr

/-- `QualityControlEvaluator.evaluate_qc_system` (quality_control_evaluator.py
lines 98-133), with the pipeline run abstracted as its outcome: on an
exception return None; otherwise build the dict from the four `result.get`
lookups (default `''`), with no emptiness check. -/
def evaluate_qc_system (outcome : RunOutcome) : Option MetaEvalDict :=
  match outcome with
  | RunOutcome.exc => none
  | RunOutcome.ok result =>
    some { meta_verdict := ExecutionResult.get result metaChoiceKey
           meta_explanation := ExecutionResult.get result metaExplKey
           failure_type := ExecutionResult.get result failChoiceKey
           failure_explanation := ExecutionResult.get result failExplKey }

/-- `key_base` hard-coded in `generate_test_case`
(education_test_generator.py line 66). -/
def genBasePath : String := "TestGenerator_root.block.unit[CategoricalJudge Generator]"

/-- The Generator verdict key looked up by `generate_test_case`. -/
def genChoiceKey : String := genBasePath ++ "_choice"

/-- The Generator explanation key looked up by `generate_test_case`. -/
def genExplKey : String := genBasePath ++ "_explanation"

/-- The `scenario` string of `generate_test_case`
(education_test_generator.py line 53). -/
def scenarioText : String :=
  "Create a math problem that tests fraction addition but has subtle conceptual gaps"

/-- The dict returned by `generate_test_case`. -/
structure TestCaseDict where
  scenario : String
  reasoning : String
  case_text : String
deriving DecidableEq, Repr

/-- `generate_test_case` (education_test_generator.py lines 52-86), with the
pipeline run abstracted as its outcome: on an exception return None;
read explanation and choice off the result map; return the dict only when
both are non-empty (`if explanation and choice`), else None. -/
def generate_test_case (outcome : RunOutcome) : Option TestCaseDict :=
  match outcome with
  | RunOutcome.exc => none
  | RunOutcome.ok result =>
    let explanation := ExecutionResult.get result genExplKey
    let choice := ExecutionResult.get result genChoiceKey
    if explanation = "" ∨ choice = "" then none
    else some ⟨scenarioText, explanation, choice⟩

/-- A pipeline stage: a single unit chained directly
(`Pipeline('...') >> unit`), or a layer of units (`>> Layer([...])`). -/
inductive Stage
  | unit (name : String)
  | layer (units : List String)

/-- Modelled from the spec: the result addressing scheme (spec §4.2 and §6;
the `verdict` library that builds these keys is not part of the repository's
sources).  A result key is the pipeline name, the stage position (the layer
index when the unit sits in a layer, nothing for a directly chained unit),
and the unit kind and name, concatenated in a fixed order, with a `_choice`
or `_explanation` suffix. -/
def key_for (pname : String) (layerIdx : Option Nat)
    (unitKind unitName field : String) : String :=
  pname ++ "_root.block" ++
    (match layerIdx with
     | some i => ".layer[" ++ toString i ++ "]"
     | none => "") ++
    ".unit[" ++ unitKind ++ " " ++ unitName ++ "]_" ++ field

/-- Modelled from the spec: the entries a layer contributes to the
ExecutionResult — one `_choice`/`_explanation` pair per member unit, keyed by
the addressing scheme (spec §4.2; executor not in the repository's sources).
`resp i` is the `(label, explanation)` the `i`-th unit's judge produced. -/
def layerEntries (pname : String) (li : Nat) :
    List String → Nat → (Nat → String × String) → ExecutionResult
  | [], _, _ => []
  | u :: us, ui, resp =>
    (key_for pname (some li) "CategoricalJudge" u "choice", (resp ui).1) ::
    (key_for pname (some li) "CategoricalJudge" u "explanation", (resp ui).2) ::
    layerEntries pname li us (ui + 1) resp

/-- Modelled from the spec: the Pipeline Executor's result construction
(spec §4.2; the `verdict` library's executor is not in the repository's
sources).  Stages run unconditionally in declared order — the executor never
short-circuits a later stage — and every unit contributes its
`_choice`/`_explanation` pair; `li`/`ui` count layers and units seen so far. -/
def runStages (pname : String) (resp : Nat → String × String) :
    List Stage → Nat → Nat → ExecutionResult
  | [], _, _ => []
  | Stage.unit u :: rest, li, ui =>
    (key_for pname none "CategoricalJudge" u "choice", (resp ui).1) ::
    (key_for pname none "CategoricalJudge" u "explanation", (resp ui).2) ::
    runStages pname resp rest li (ui + 1)
  | Stage.layer us :: rest, li, ui =>
    layerEntries pname li us ui resp ++ runStages pname resp rest (li + 1) (ui + us.length)

/-- Modelled from the spec: `pipeline.run` in graceful mode producing the
ExecutionResult for a composed pipeline (spec §4.2). -/
def pipelineRun (pname : String) (stages : List Stage)
    (resp : Nat → String × String) : ExecutionResult :=
  runStages pname resp stages 0 0

/-- The pipeline built by `ContentQualityControl.create_pipeline`
(llm_quality_control.py lines 33-61): `Pipeline('QualityControl') >>
Layer([quality_judge])` with the judge named `QualityJudge`. -/
def qualityControlStages : List Stage := [Stage.layer ["QualityJudge"]]

/-- The pipeline built by `QualityControlEvaluator.create_evaluation_pipeline`
(quality_control_evaluator.py lines 16-96): `Pipeline('QCEvaluator') >>
Layer([meta_judge]) >> Layer([failure_analyzer])`. -/
def qcEvaluatorStages : List Stage :=
  [Stage.layer ["MetaJudge"], Stage.layer ["FailureAnalyzer"]]

/-- The pipeline built by `create_test_generation_pipeline`
(education_test_generator.py lines 11-50): `Pipeline('TestGenerator') >>
generator` with the judge named `Generator`, chained directly (no Layer). -/
def testGeneratorStages : List Stage := [Stage.unit "Generator"]

/-- A run of the QualityControl pipeline whose judge answered
`(label, expl)`. -/
def qualityControlRun (label expl : String) : ExecutionResult :=
  pipelineRun "QualityControl" qualityControlStages (fun _ => (label, expl))

/-- A run of the QCEvaluator pipeline whose MetaJudge answered
`(metaLabel, metaExpl)` and whose FailureAnalyzer answered
`(failLabel, failExpl)`. -/
def qcEvaluatorRun (metaLabel metaExpl failLabel failExpl : String) : ExecutionResult :=
  pipelineRun "QCEvaluator" qcEvaluatorStages
    (fun i => if i = 0 then (metaLabel, metaExpl) else (failLabel, failExpl))

/-- A run of the TestGenerator pipeline whose judge answered
`(label, expl)`. -/
def testGeneratorRun (label expl : String) : ExecutionResult :=
  pipelineRun "TestGenerator" testGeneratorStages (fun _ => (label, expl))

/-- A pipeline-run oracle standing for a judge that answers `revise` (with a
fixed non-empty explanation) on every evaluation. -/
def constRunRevise : Nat → String → RunOutcome := fun _ _ =>
  RunOutcome.ok [(qcChoiceKey, "revise"), (qcExplKey, "needs work")]

/-- A pipeline-run oracle standing for a judge that answers `revise` on the
first evaluation and `pass` on every later one. -/
def revisePassRun : Nat → String → RunOutcome := fun k _ =>
  if k = 0 then RunOutcome.ok [(qcChoiceKey, "revise"), (qcExplKey, "needs work")]
  else RunOutcome.ok [(qcChoiceKey, "pass"), (qcExplKey, "looks good")]

/-- A generation oracle whose every call succeeds with non-empty output. -/
def constGenOk : Nat → String → String → GenOutcome := fun _ _ _ =>
  GenOutcome.ok "better"

/-- A generation oracle whose every call raises. -/
def constGenExc : Nat → String → String → GenOutcome := fun _ _ _ => GenOutcome.exc

/-- A judge that returns the verdict `revise` (with a non-empty explanation)
on every evaluation, seen through the pipeline-run oracle: every run
succeeds and its result map carries `revise` at the verdict key and a
non-empty explanation at the explanation key. -/
def judgeAlwaysRevise (runP : Nat → String → RunOutcome) : Prop :=
  ∀ k c, ∃ res, runP k c = RunOutcome.ok res ∧
    ExecutionResult.get res qcChoiceKey = "revise" ∧
    ¬ ExecutionResult.get res qcExplKey = ""

/-- An improvement capability that always succeeds: every generation call
returns non-empty content. -/
def genAlwaysOk (genF : Nat → String → String → GenOutcome) : Prop :=
  ∀ k c f, ∃ s, genF k c f = GenOutcome.ok s ∧ ¬ s = ""

/-- Well-formed refinement-loop traces starting from content `c`: the loop
alternates evaluation and regeneration events; a trace ends after an
evaluation (pass / evaluation failure / budget exhausted after the final
regeneration is dropped) or after a regeneration (regeneration failure),
and whenever the loop continues, the next evaluation's content is exactly
the preceding regeneration's (non-empty) output. -/
inductive AltTrace : String → List Event → Prop
  | nil (c : String) : AltTrace c []
  | evalStop (c : String) (k : Nat) : AltTrace c [Event.eval k c]
  | evalGenStop (c : String) (k j : Nat) (f : String) (o : Option String) :
      AltTrace c [Event.eval k c, Event.gen j c f o]
  | evalGenCont (c : String) (k j : Nat) (f o : String) (tr : List Event) :
      AltTrace o tr → AltTrace c (Event.eval k c :: Event.gen j c f (some o) :: tr)

/-- Every trace the refinement loop emits is a well-formed alternating
trace. -/
lemma improveContentAux_altTrace (runP : Nat → String → RunOutcome)
    (genF : Nat → String → String → GenOutcome) :
    ∀ fuel current last ec gc,
      AltTrace current (improveContentAux runP genF fuel current last ec gc).2.2.2 := by
  intro fuel
  induction fuel with
  | zero =>
    intro current last ec gc
    exact AltTrace.nil current
  | succ n ih =>
    intro current last ec gc
    rcases hE : evaluate_content (runP ec current) current with _ | r
    · simp only [improveContentAux, hE]
      exact AltTrace.evalStop current ec
    · by_cases hv : r.verdict = "pass"
      · simp only [improveContentAux, hE, hv, if_true]
        exact AltTrace.evalStop current ec
      · rcases hG : generate_improved_content (genF gc current r.explanation) with _ | s
        · simp only [improveContentAux, hE, hG, if_neg hv]
          exact AltTrace.evalGenStop current ec gc r.explanation none
        · by_cases hs : s = ""
          · simp only [improveContentAux, hE, hG, if_neg hv, hs, if_true]
            subst hs
            exact AltTrace.evalGenStop current ec gc r.explanation (some "")
          · simp only [improveContentAux, hE, hG, if_neg hv, if_neg hs]
            exact AltTrace.evalGenCont current ec gc r.explanation s _
              (ih s (some r) (ec + 1) (gc + 1))

/-- In a well-formed trace, the first event (when it is an evaluation)
evaluates the trace's starting content. -/
lemma altTrace_head_eval {c : String} {tr : List Event} (h : AltTrace c tr) :
    ∀ k x, tr[0]? = some (Event.eval k x) → x = c := by
  cases h <;> intro k x hx <;> simp_all

/-- In a well-formed trace, no two adjacent events are both evaluations. -/
lemma altTrace_no_consec {c : String} {tr : List Event} (h : AltTrace c tr) :
    ∀ i k x k' x', tr[i]? = some (Event.eval k x) →
      tr[i + 1]? = some (Event.eval k' x') → False := by
  induction h with
  | nil c =>
    intro i k x k' x' h1 _
    simp at h1
  | evalStop c k0 =>
    intro i k x k' x' h1 h2
    match i with
    | 0 => simp at h2
    | i + 1 => simp at h1
  | evalGenStop c k0 j f o =>
    intro i k x k' x' h1 h2
    match i with
    | 0 => simp at h2
    | 1 => simp at h2
    | i + 2 => simp at h1
  | evalGenCont c k0 j f o tr h ih =>
    intro i k x k' x' h1 h2
    match i with
    | 0 => simp at h2
    | 1 => simp at h1
    | i + 2 =>
      simp only [List.getElem?_cons_succ] at h1 h2
      exact ih i k x k' x' h1 h2

/-- In a well-formed trace, between two consecutive evaluations stands a
regeneration whose input is the earlier content and whose output is exactly
the next evaluation's content. -/
lemma altTrace_gen_between {c : String} {tr : List Event} (h : AltTrace c tr) :
    ∀ i k x k' x', tr[i]? = some (Event.eval k x) →
      tr[i + 2]? = some (Event.eval k' x') →
      ∃ j f, tr[i + 1]? = some (Event.gen j x f (some x')) := by
  induction h with
  | nil c =>
    intro i k x k' x' h1 _
    simp at h1
  | evalStop c k0 =>
    intro i k x k' x' h1 h2
    match i with
    | 0 => simp at h2
    | i + 1 => simp at h1
  | evalGenStop c k0 j f o =>
    intro i k x k' x' h1 h2
    match i with
    | 0 => simp at h2
    | 1 => simp at h1
    | i + 2 => simp at h1
  | evalGenCont c k0 j0 f0 o tr h ih =>
    intro i k x k' x' h1 h2
    match i with
    | 0 =>
      simp only [List.getElem?_cons_zero, Option.some.injEq] at h1
      simp only [List.getElem?_cons_succ, List.getElem?_cons_zero] at h2 ⊢
      have hx : x = c := by cases h1; rfl
      have hx' : x' = o := altTrace_head_eval h k' x' h2
      subst hx hx'
      exact ⟨j0, f0, rfl⟩
    | 1 => simp at h1
    | i + 2 =>
      simp only [List.getElem?_cons_succ] at h1 h2 ⊢
      exact ih i k x k' x' h1 h2

/-- The indices of the evaluation events of a trace, in order
(the value the Python local `iterations` had during each cycle is this
index plus one). -/
def evalIndices (tr : List Event) : List Nat :=
  tr.filterMap fun e =>
    match e with
    | Event.eval k _ => some k
    | Event.gen _ _ _ _ => none

/-- Counter invariant of the loop: starting from `ec` performed
evaluations with `fuel` loop-guard checks left, the final evaluation count
lies between `ec` and `ec + fuel`, and the evaluations performed are
numbered consecutively `ec, ec+1, ...`. -/
lemma improveContentAux_counts (runP : Nat → String → RunOutcome)
    (genF : Nat → String → String → GenOutcome) :
    ∀ fuel current last ec gc,
      ec ≤ (improveContentAux runP genF fuel current last ec gc).2.1 ∧
      (improveContentAux runP genF fuel current last ec gc).2.1 ≤ ec + fuel ∧
      evalIndices (improveContentAux runP genF fuel current last ec gc).2.2.2 =
        List.range' ec ((improveContentAux runP genF fuel current last ec gc).2.1 - ec) := by
  intro fuel
  induction fuel with
  | zero =>
    intro current last ec gc
    simp [improveContentAux, evalIndices]
  | succ n ih =>
    intro current last ec gc
    rcases hE : evaluate_content (runP ec current) current with _ | r
    · simp only [improveContentAux, hE]
      refine ⟨by omega, by omega, ?_⟩
      simp [evalIndices, List.range']
    · by_cases hv : r.verdict = "pass"
      · simp only [improveContentAux, hE, hv, if_true]
        refine ⟨by omega, by omega, ?_⟩
        simp [evalIndices, List.range']
      · rcases hG : generate_improved_content (genF gc current r.explanation) with _ | s
        · simp only [improveContentAux, hE, hG, if_neg hv]
          refine ⟨by omega, by omega, ?_⟩
          simp [evalIndices, List.range']
        · by_cases hs : s = ""
          · simp only [improveContentAux, hE, hG, if_neg hv, hs, if_true]
            refine ⟨by omega, by omega, ?_⟩
            simp [evalIndices, List.range']
          · simp only [improveContentAux, hE, hG, if_neg hv, if_neg hs]
            obtain ⟨ih1, ih2, ih3⟩ := ih s (some r) (ec + 1) (gc + 1)
            refine ⟨by omega, by omega, ?_⟩
            simp only [evalIndices, List.filterMap_cons] at ih3 ⊢
            rw [ih3]
            have hd : (improveContentAux runP genF n s (some r) (ec + 1) (gc + 1)).2.1 - ec =
                ((improveContentAux runP genF n s (some r) (ec + 1) (gc + 1)).2.1 - (ec + 1)) + 1 := by
              omega
            rw [hd, List.range'_succ]

/-- If the Python local `result` is already bound (`last = some r`), the
loop can no longer raise `UnboundLocalError`. -/
lemma improveContentAux_some_ne_unbound (runP : Nat → String → RunOutcome)
    (genF : Nat → String → String → GenOutcome) :
    ∀ fuel current r ec gc,
      (improveContentAux runP genF fuel current (some r) ec gc).1 ≠
        ImproveResult.unboundLocalError := by
  intro fuel
  induction fuel with
  | zero =>
    intro current r ec gc
    simp [improveContentAux]
  | succ n ih =>
    intro current r ec gc
    rcases hE : evaluate_content (runP ec current) current with _ | r'
    · simp [improveContentAux, hE]
    · by_cases hv : r'.verdict = "pass"
      · simp [improveContentAux, hE, hv]
      · rcases hG : generate_improved_content (genF gc current r'.explanation) with _ | s
        · simp [improveContentAux, hE, hG, if_neg hv]
        · by_cases hs : s = ""
          · simp [improveContentAux, hE, hG, if_neg hv, hs]
          · simp only [improveContentAux, hE, hG, if_neg hv, if_neg hs]
            exact ih s r' (ec + 1) (gc + 1)

/-- With at least one loop-guard check left, the loop cannot raise
`UnboundLocalError`: the first cycle either returns or binds `result`. -/
lemma improveContentAux_pos_ne_unbound (runP : Nat → String → RunOutcome)
    (genF : Nat → String → String → GenOutcome)
    (n : Nat) (current : String) (last : Option EvalDict) (ec gc : Nat) :
    (improveContentAux runP genF (n + 1) current last ec gc).1 ≠
      ImproveResult.unboundLocalError := by
  rcases hE : evaluate_content (runP ec current) current with _ | r
  · simp [improveContentAux, hE]
  · by_cases hv : r.verdict = "pass"
    · simp [improveContentAux, hE, hv]
    · rcases hG : generate_improved_content (genF gc current r.explanation) with _ | s
      · simp [improveContentAux, hE, hG, if_neg hv]
      · by_cases hs : s = ""
        · simp [improveContentAux, hE, hG, if_neg hv, hs]
        · simp only [improveContentAux, hE, hG, if_neg hv, if_neg hs]
          exact improveContentAux_some_ne_unbound runP genF n s r (ec + 1) (gc + 1)

/- ------------------------------------------------------------------ -/
/- Claim theorems                                                      -/
/- ------------------------------------------------------------------ -/

/-- C1, counterexample: with `max_iterations = 3`, a judge answering
`revise` on every evaluation and an always-succeeding improvement
capability, `improve_content` performs 3 regeneration calls, not the 2 the
claim states — the loop regenerates even on its final iteration and only
then discards the output at the loop guard. -/
theorem c1_counterexample :
    (improve_content constRunRevise constGenOk 3 "seed").2.2.1 = 3 ∧
    ¬ ((improve_content constRunRevise constGenOk 3 "seed").2.2.1 = 2) := by
  decide

/-- C1 (amended): with `max_iterations = 3`, a judge answering `revise` on
every evaluation and an always-succeeding improvement capability,
`improve_content` performs exactly 3 evaluation cycles and exactly 3
regeneration calls (the final regeneration's output `c3` is discarded),
then terminates exhausted, returning the last (failing) evaluation result
`r` — the third evaluation's dict, whose content is the content `c2` that
evaluation judged — rather than an error or `None`. -/
theorem c1_exhausted_run (runP : Nat → String → RunOutcome)
    (genF : Nat → String → String → GenOutcome)
    (h1 : judgeAlwaysRevise runP) (h2 : genAlwaysOk genF) (content : String) :
    ∃ r f0 f1 c1 c2 c3,
      improve_content runP genF 3 content =
        (ImproveResult.ret (some r), 3, 3,
         [Event.eval 0 content, Event.gen 0 content f0 (some c1),
          Event.eval 1 c1, Event.gen 1 c1 f1 (some c2),
          Event.eval 2 c2, Event.gen 2 c2 r.explanation (some c3)]) ∧
      r.verdict = "revise" ∧ r.content = c2 := by
  obtain ⟨res0, hr0, hv0, he0⟩ := h1 0 content
  obtain ⟨s0, hg0, hs0⟩ := h2 0 content (ExecutionResult.get res0 qcExplKey)
  obtain ⟨res1, hr1, hv1, he1⟩ := h1 1 s0
  obtain ⟨s1, hg1, hs1⟩ := h2 1 s0 (ExecutionResult.get res1 qcExplKey)
  obtain ⟨res2, hr2, hv2, he2⟩ := h1 2 s1
  obtain ⟨s2, hg2, hs2⟩ := h2 2 s1 (ExecutionResult.get res2 qcExplKey)
  refine ⟨⟨"revise", ExecutionResult.get res2 qcExplKey, s1⟩,
    ExecutionResult.get res0 qcExplKey, ExecutionResult.get res1 qcExplKey,
    s0, s1, s2, ?_, rfl, rfl⟩
  simp [improve_content, improveContentAux, evaluate_content, generate_improved_content,
    hr0, hv0, he0, hg0, hs0, hr1, hv1, he1, hg1, hs1, hr2, hv2, he2, hg2, hs2]

/-- C1 witness: the amended theorem applied to concrete oracles. -/
theorem c1_exhausted_run_witness :
    ∃ r f0 f1 c1 c2 c3,
      improve_content constRunRevise constGenOk 3 "seed" =
        (ImproveResult.ret (some r), 3, 3,
         [Event.eval 0 "seed", Event.gen 0 "seed" f0 (some c1),
          Event.eval 1 c1, Event.gen 1 c1 f1 (some c2),
          Event.eval 2 c2, Event.gen 2 c2 r.explanation (some c3)]) ∧
      r.verdict = "revise" ∧ r.content = c2 :=
  c1_exhausted_run constRunRevise constGenOk
    (fun _ _ => ⟨_, rfl, by decide, by decide⟩)
    (fun _ _ _ => ⟨"better", rfl, by decide⟩) "seed"

/-- C3: with `max_iterations ≥ 2`, a judge answering `revise` on the first
evaluation and `pass` on the second, and a successful regeneration in
between producing `s0`, `improve_content` performs exactly 2 evaluation
cycles and exactly 1 regeneration call and returns a passing result whose
content field is the regenerated content `s0`. -/
theorem c3_revise_then_pass (runP : Nat → String → RunOutcome)
    (genF : Nat → String → String → GenOutcome)
    (maxIterations : Int) (content : String)
    (res0 res1 : ExecutionResult) (s0 : String)
    (hm : 2 ≤ maxIterations)
    (hr0 : runP 0 content = RunOutcome.ok res0)
    (hv0 : ExecutionResult.get res0 qcChoiceKey = "revise")
    (he0 : ¬ ExecutionResult.get res0 qcExplKey = "")
    (hg0 : genF 0 content (ExecutionResult.get res0 qcExplKey) = GenOutcome.ok s0)
    (hs0 : ¬ s0 = "")
    (hr1 : runP 1 s0 = RunOutcome.ok res1)
    (hv1 : ExecutionResult.get res1 qcChoiceKey = "pass")
    (he1 : ¬ ExecutionResult.get res1 qcExplKey = "") :
    improve_content runP genF maxIterations content =
      (ImproveResult.ret (some ⟨"pass", ExecutionResult.get res1 qcExplKey, s0⟩), 2, 1,
       [Event.eval 0 content,
        Event.gen 0 content (ExecutionResult.get res0 qcExplKey) (some s0),
        Event.eval 1 s0]) := by
  obtain ⟨m, hm2⟩ : ∃ m, maxIterations.toNat = m + 1 + 1 :=
    ⟨maxIterations.toNat - 2, by omega⟩
  simp [improve_content, hm2, improveContentAux, evaluate_content, generate_improved_content,
    hr0, hv0, he0, hg0, hs0, hr1, hv1, he1]

/-- C3 witness: the theorem applied to concrete oracles with
`max_iterations = 5`. -/
theorem c3_revise_then_pass_witness :
    improve_content revisePassRun constGenOk 5 "seed" =
      (ImproveResult.ret (some ⟨"pass", "looks good", "better"⟩), 2, 1,
       [Event.eval 0 "seed", Event.gen 0 "seed" "needs work" (some "better"),
        Event.eval 1 "better"]) :=
  c3_revise_then_pass revisePassRun constGenOk 5 "seed"
    [(qcChoiceKey, "revise"), (qcExplKey, "needs work")]
    [(qcChoiceKey, "pass"), (qcExplKey, "looks good")] "better"
    (by decide) rfl (by decide) (by decide) rfl (by decide) rfl (by decide) (by decide)

/-- C5: on any iteration of the refinement loop (any reachable loop state:
remaining budget `fuel + 1`, current content, call counts `ec`, `gc`) in
which the judge asks for revision but the improvement capability fails to
produce content — `generate_improved_content` returns `None`, which covers
the underlying generation call raising — the loop terminates immediately
(aborted) and `improve_content`'s loop returns `None`.  `improve_content`
itself is `improveContentAux` started at the initial state. -/
theorem c5_gen_failure_aborts (runP : Nat → String → RunOutcome)
    (genF : Nat → String → String → GenOutcome)
    (fuel : Nat) (current : String) (last : Option EvalDict) (ec gc : Nat)
    (res : ExecutionResult)
    (hr : runP ec current = RunOutcome.ok res)
    (hv0 : ¬ ExecutionResult.get res qcChoiceKey = "")
    (hv : ¬ ExecutionResult.get res qcChoiceKey = "pass")
    (he : ¬ ExecutionResult.get res qcExplKey = "")
    (hg : generate_improved_content (genF gc current (ExecutionResult.get res qcExplKey)) = none) :
    improveContentAux runP genF (fuel + 1) current last ec gc =
      (ImproveResult.ret none, ec + 1, gc + 1,
       [Event.eval ec current,
        Event.gen gc current (ExecutionResult.get res qcExplKey) none]) := by
  simp [improveContentAux, evaluate_content, hr, hv0, hv, he, hg]

/-- C5 witness: the theorem applied to concrete oracles, matching
`improve_content` with `max_iterations = 3` on its first iteration. -/
theorem c5_gen_failure_aborts_witness :
    improveContentAux constRunRevise constGenExc (2 + 1) "seed" none 0 0 =
      (ImproveResult.ret none, 0 + 1, 0 + 1,
       [Event.eval 0 "seed", Event.gen 0 "seed" "needs work" none]) :=
  c5_gen_failure_aborts constRunRevise constGenExc 2 "seed" none 0 0
    [(qcChoiceKey, "revise"), (qcExplKey, "needs work")]
    rfl (by decide) (by decide) (by decide) rfl

/-- C2: for every invocation of `evaluate_qc_system`, whatever label the
MetaJudge stage returns (`reliable` or not), the FailureAnalyzer stage
executes — its `_choice` and `_explanation` keys are present in the
ExecutionResult — and its outputs are present in the returned mapping
(`failure_analysis.type/explanation`); the pipeline never short-circuits
stage 2.  The executor is modelled from the spec (`verdict` library not in
the sources): it runs every declared stage unconditionally. -/
theorem c2_stage2_always_runs (metaLabel metaExpl failLabel failExpl : String) :
    (ExecutionResult.keys (qcEvaluatorRun metaLabel metaExpl failLabel failExpl)).contains
        failChoiceKey = true ∧
    (ExecutionResult.keys (qcEvaluatorRun metaLabel metaExpl failLabel failExpl)).contains
        failExplKey = true ∧
    evaluate_qc_system (RunOutcome.ok (qcEvaluatorRun metaLabel metaExpl failLabel failExpl)) =
      some ⟨metaLabel, metaExpl, failLabel, failExpl⟩ :=
  ⟨rfl, rfl, rfl⟩

/-- C4: result keys are built from the pipeline name, the stage position
(layer index, absent for a directly chained unit), and the unit kind and
name, concatenated in a fixed order with a `_choice`/`_explanation` suffix
(`key_for`, modelled from the spec); the keys hard-coded in
`evaluate_content`, `evaluate_qc_system` and `generate_test_case` are
exactly the keys the scheme yields for those units, and a run of each of
the three pipelines in the sources carries exactly those keys, so those
callers retrieve any unit's verdict and explanation without inspecting the
result map. -/
theorem c4_addressing_scheme (v e mv me fv fe gv ge : String) :
    qcChoiceKey = key_for "QualityControl" (some 0) "CategoricalJudge" "QualityJudge" "choice" ∧
    qcExplKey = key_for "QualityControl" (some 0) "CategoricalJudge" "QualityJudge" "explanation" ∧
    metaChoiceKey = key_for "QCEvaluator" (some 0) "CategoricalJudge" "MetaJudge" "choice" ∧
    metaExplKey = key_for "QCEvaluator" (some 0) "CategoricalJudge" "MetaJudge" "explanation" ∧
    failChoiceKey = key_for "QCEvaluator" (some 1) "CategoricalJudge" "FailureAnalyzer" "choice" ∧
    failExplKey = key_for "QCEvaluator" (some 1) "CategoricalJudge" "FailureAnalyzer" "explanation" ∧
    genChoiceKey = key_for "TestGenerator" none "CategoricalJudge" "Generator" "choice" ∧
    genExplKey = key_for "TestGenerator" none "CategoricalJudge" "Generator" "explanation" ∧
    ExecutionResult.keys (qualityControlRun v e) = [qcChoiceKey, qcExplKey] ∧
    ExecutionResult.keys (qcEvaluatorRun mv me fv fe) =
      [metaChoiceKey, metaExplKey, failChoiceKey, failExplKey] ∧
    ExecutionResult.keys (testGeneratorRun gv ge) = [genChoiceKey, genExplKey] ∧
    ExecutionResult.get (qualityControlRun v e) qcChoiceKey = v ∧
    ExecutionResult.get (qualityControlRun v e) qcExplKey = e ∧
    ExecutionResult.get (testGeneratorRun gv ge) genChoiceKey = gv ∧
    ExecutionResult.get (testGeneratorRun gv ge) genExplKey = ge ∧
    generate_test_case (RunOutcome.ok (testGeneratorRun "valid" "my reasoning")) =
      some ⟨scenarioText, "my reasoning", "valid"⟩ :=
  ⟨rfl, rfl, rfl, rfl, rfl, rfl, rfl, rfl, rfl, rfl, rfl, rfl, rfl, rfl, rfl, by decide⟩

/-- C6: `evaluate_content` returns `None` when the pipeline run raises and
when the verdict or explanation key is absent from or empty in the
ExecutionResult (absence and emptiness coincide through `result.get(key,
'')`); a non-`None` return always carries a non-empty verdict and a
non-empty explanation — never a partially-filled dict. -/
theorem c6_no_partial_result (c : String) :
    (∀ out r, evaluate_content out c = some r →
      ¬ r.verdict = "" ∧ ¬ r.explanation = "") ∧
    evaluate_content RunOutcome.exc c = none ∧
    (∀ res : ExecutionResult,
      ExecutionResult.get res qcChoiceKey = "" ∨ ExecutionResult.get res qcExplKey = "" →
      evaluate_content (RunOutcome.ok res) c = none) := by
  refine ⟨?_, rfl, ?_⟩
  · intro out r h
    match out with
    | RunOutcome.exc => exact absurd h (by simp [evaluate_content])
    | RunOutcome.ok res =>
      by_cases hemp : ExecutionResult.get res qcChoiceKey = "" ∨
          ExecutionResult.get res qcExplKey = ""
      · simp [evaluate_content, hemp] at h
      · push_neg at hemp
        have : r = ⟨ExecutionResult.get res qcChoiceKey,
            ExecutionResult.get res qcExplKey, c⟩ := by
          simp [evaluate_content, hemp.1, hemp.2] at h
          exact h.symm
        rw [this]
        exact ⟨hemp.1, hemp.2⟩
  · intro res h
    simp [evaluate_content, h]

/-- C6 witness: the empty result map yields `None`. -/
theorem c6_no_partial_result_witness :
    evaluate_content (RunOutcome.ok []) "x" = none :=
  (c6_no_partial_result "x").2.2 [] (Or.inl rfl)

/-- C9: with a deterministic judge (the same label and explanation whatever
the call count), any two invocations of the QualityControl pipeline produce
identical ExecutionResult keys and values, and `evaluate_content` on the
same content therefore returns identical dicts.  The executor is modelled
from the spec (`verdict` library not in the sources). -/
theorem c9_deterministic_idempotent (judge : Nat → String × String)
    (h : ∀ i j, judge i = judge j) (i j : Nat) (c : String) :
    qualityControlRun (judge i).1 (judge i).2 = qualityControlRun (judge j).1 (judge j).2 ∧
    evaluate_content (RunOutcome.ok (qualityControlRun (judge i).1 (judge i).2)) c =
      evaluate_content (RunOutcome.ok (qualityControlRun (judge j).1 (judge j).2)) c := by
  rw [h i j]
  exact ⟨rfl, rfl⟩

/-- C9 witness: the theorem applied to a concrete constant judge. -/
theorem c9_deterministic_idempotent_witness :
    qualityControlRun ("pass", "fine").1 ("pass", "fine").2 =
      qualityControlRun ("pass", "fine").1 ("pass", "fine").2 ∧
    evaluate_content (RunOutcome.ok (qualityControlRun ("pass", "fine").1 ("pass", "fine").2)) "c" =
      evaluate_content (RunOutcome.ok (qualityControlRun ("pass", "fine").1 ("pass", "fine").2)) "c" :=
  c9_deterministic_idempotent (fun _ => ("pass", "fine")) (fun _ _ => rfl) 0 1 "c"

/-- C7: within a single run of `improve_content`, the event trace is a
well-formed alternating trace: the loop never submits content to the judge
in two consecutive events without an intervening regeneration, and between
any two consecutive evaluations stands a regeneration call whose input is
the earlier current content and whose output — which replaced
`current_content` — is exactly the next evaluation's content. -/
theorem c7_no_reeval_without_regen (runP : Nat → String → RunOutcome)
    (genF : Nat → String → String → GenOutcome)
    (maxIterations : Int) (content : String) :
    AltTrace content (improve_content runP genF maxIterations content).2.2.2 ∧
    (∀ i k x k' x',
      ((improve_content runP genF maxIterations content).2.2.2)[i]? =
        some (Event.eval k x) →
      ((improve_content runP genF maxIterations content).2.2.2)[i + 1]? =
        some (Event.eval k' x') → False) ∧
    (∀ i k x k' x',
      ((improve_content runP genF maxIterations content).2.2.2)[i]? =
        some (Event.eval k x) →
      ((improve_content runP genF maxIterations content).2.2.2)[i + 2]? =
        some (Event.eval k' x') →
      ∃ j f, ((improve_content runP genF maxIterations content).2.2.2)[i + 1]? =
        some (Event.gen j x f (some x'))) :=
  ⟨improveContentAux_altTrace runP genF maxIterations.toNat content none 0 0,
   fun i k x k' x' h1 h2 =>
     altTrace_no_consec
       (improveContentAux_altTrace runP genF maxIterations.toNat content none 0 0)
       i k x k' x' h1 h2,
   fun i k x k' x' h1 h2 =>
     altTrace_gen_between
       (improveContentAux_altTrace runP genF maxIterations.toNat content none 0 0)
       i k x k' x' h1 h2⟩

/-- C7 witness: in a concrete two-iteration run, the regeneration between
the two evaluations outputs exactly the second evaluation's content. -/
theorem c7_no_reeval_without_regen_witness :
    ∃ j f, ((improve_content constRunRevise constGenOk 2 "seed").2.2.2)[0 + 1]? =
      some (Event.gen j "seed" f (some "better")) :=
  (c7_no_reeval_without_regen constRunRevise constGenOk 2 "seed").2.2
    0 0 "seed" 1 "better" (by decide) (by decide)

/-- C8: in every run of `improve_content` with configured
`max_iterations ≥ 1`, the iteration counter starts at 0 (0-based evaluation
indices here; the Python `iterations` local is this index plus one),
increases by exactly 1 per cycle — the performed evaluations are numbered
`0, 1, ..., n-1` — and the number of cycles never exceeds
`max_iterations`. -/
theorem c8_iteration_counter_bounded (runP : Nat → String → RunOutcome)
    (genF : Nat → String → String → GenOutcome)
    (maxIterations : Int) (content : String) (h : 1 ≤ maxIterations) :
    ((improve_content runP genF maxIterations content).2.1 : Int) ≤ maxIterations ∧
    evalIndices (improve_content runP genF maxIterations content).2.2.2 =
      List.range (improve_content runP genF maxIterations content).2.1 := by
  obtain ⟨h1, h2, h3⟩ :=
    improveContentAux_counts runP genF maxIterations.toNat content none 0 0
  constructor
  · show ((improveContentAux runP genF maxIterations.toNat content none 0 0).2.1 : Int) ≤
      maxIterations
    omega
  · show evalIndices (improveContentAux runP genF maxIterations.toNat content none 0 0).2.2.2 =
      List.range (improveContentAux runP genF maxIterations.toNat content none 0 0).2.1
    rw [h3, List.range_eq_range']
    simp

/-- C8 witness: the theorem applied to concrete oracles with
`max_iterations = 3`. -/
theorem c8_iteration_counter_bounded_witness :
    ((improve_content constRunRevise constGenOk 3 "seed").2.1 : Int) ≤ 3 ∧
    evalIndices (improve_content constRunRevise constGenOk 3 "seed").2.2.2 =
      List.range (improve_content constRunRevise constGenOk 3 "seed").2.1 :=
  c8_iteration_counter_bounded constRunRevise constGenOk 3 "seed" (by decide)

/-- C10: with `max_iterations ≤ 0` the loop body never runs and
`improve_content` hits `return result` with the local `result` unbound,
raising `UnboundLocalError` (after 0 evaluation and 0 regeneration calls)
instead of returning a value; with `max_iterations ≥ 1` that branch is
unreachable, because the first cycle either returns or binds `result`. -/
theorem c10_unbound_local (runP : Nat → String → RunOutcome)
    (genF : Nat → String → String → GenOutcome)
    (content : String) (maxIterations : Int) :
    (maxIterations ≤ 0 →
      improve_content runP genF maxIterations content =
        (ImproveResult.unboundLocalError, 0, 0, [])) ∧
    (1 ≤ maxIterations →
      (improve_content runP genF maxIterations content).1 ≠
        ImproveResult.unboundLocalError) := by
  constructor
  · intro h
    have h0 : maxIterations.toNat = 0 := by omega
    show improveContentAux runP genF maxIterations.toNat content none 0 0 = _
    rw [h0]
    rfl
  · intro h
    obtain ⟨m, hm⟩ : ∃ m, maxIterations.toNat = m + 1 :=
      ⟨maxIterations.toNat - 1, by omega⟩
    show (improveContentAux runP genF maxIterations.toNat content none 0 0).1 ≠ _
    rw [hm]
    exact improveContentAux_pos_ne_unbound runP genF m content none 0 0

/-- C10 witness: the theorem applied to concrete oracles at
`max_iterations = 0` (raises) and `max_iterations = 3` (cannot raise). -/
theorem c10_unbound_local_witness :
    improve_content constRunRevise constGenOk 0 "seed" =
      (ImproveResult.unboundLocalError, 0, 0, []) ∧
    (improve_content constRunRevise constGenOk 3 "seed").1 ≠
      ImproveResult.unboundLocalError :=
  ⟨(c10_unbound_local constRunRevise constGenOk "seed" 0).1 (by decide),
   (c10_unbound_local constRunRevise constGenOk "seed" 3).2 (by decide)⟩

end HackVerdict
